import Mathlib

/-!
Verification of the loxone-prometheus-exporter against its natural-language
specification.  The Python sources under src/loxone_exporter are shallowly
embedded: bytes are `List Nat` (each byte < 256 where it matters), Python
dicts are association lists in insertion order, IEEE-754 doubles are carried
as their 64-bit little-endian bit patterns (struct.unpack "<d" is a bijection
between 8 raw bytes and double bit patterns, and the program never does
arithmetic on the decoded values), wall-clock and monotonic times are `Nat`
parameters supplied by the environment, and fallible operations return
`Option`.
-/

/-! ### Association-list helpers (Python `dict` in insertion order) -/

/-- Lookup of the first binding of a key, the model of `d.get(k)`. -/
def lookupA {α : Type} : List (String × α) → String → Option α
  | [], _ => none
  | (k', v) :: rest, k => if k' = k then some v else lookupA rest k

/-- Map over the values of an association list, keeping keys. -/
def mapVals {α : Type} (f : String → α → α) (l : List (String × α)) : List (String × α) :=
  l.map (fun p => (p.1, f p.1 p.2))

/-! ### Little-endian byte arithmetic and hex rendering -/

/-- Little-endian interpretation of a byte list as a natural number. -/
def leNat : List Nat → Nat
  | [] => 0
  | b :: rest => b + 256 * leNat rest

/-- Little-endian 4-byte encoding of a natural number (the model of
`struct.pack "<I"`). -/
def le32enc (n : Nat) : List Nat :=
  [n % 256, n / 256 % 256, n / 65536 % 256, n / 16777216 % 256]

/-- Lowercase hexadecimal digit for a value below 16. -/
def hexDigit (n : Nat) : Char :=
  if n < 10 then Char.ofNat (48 + n) else Char.ofNat (87 + n)

/-- Two lowercase hex digits of one byte. -/
def byteHex (b : Nat) : List Char :=
  [hexDigit (b / 16 % 16), hexDigit (b % 16)]

/-- Hex rendering of a byte list, bytes in list order. -/
def bytesHex (bs : List Nat) : List Char :=
  bs.foldr (fun b acc => byteHex b ++ acc) []

/-- Conversion of 16 little-endian UUID bytes to the canonical lowercase
8-4-4-4-12 string, the model of `uuid.UUID(bytes_le=data)` followed by `str`:
the first three groups are byte-swapped, the remaining 8 bytes are rendered
in order.  Out-of-range indices read as 0 (the callers always pass 16
bytes). -/
def _uuid_from_bytes_le (b : List Nat) : String :=
  String.mk (bytesHex [b.getD 3 0, b.getD 2 0, b.getD 1 0, b.getD 0 0]
    ++ '-' :: bytesHex [b.getD 5 0, b.getD 4 0]
    ++ '-' :: bytesHex [b.getD 7 0, b.getD 6 0]
    ++ '-' :: bytesHex [b.getD 8 0, b.getD 9 0]
    ++ '-' :: bytesHex [b.getD 10 0, b.getD 11 0, b.getD 12 0, b.getD 13 0,
        b.getD 14 0, b.getD 15 0])

/-! ### loxone_protocol.py -/

/-- Parsed Loxone binary message header (`MessageHeader`). -/
structure MessageHeader where
  msg_type : Nat
  exact_length : Nat
  estimated : Bool
deriving DecidableEq

/-- Model of `parse_header`: unpack `<BBBxI` from the first 8 bytes; `none`
models the `ValueError` raised when fewer than 8 bytes are given. -/
def parse_header (data : List Nat) : Option MessageHeader :=
  match data with
  | _b0 :: b1 :: b2 :: _b3 :: b4 :: b5 :: b6 :: b7 :: _ =>
      some ⟨b1, leNat [b4, b5, b6, b7], b2 % 2 = 1⟩
  | _ => none

/-- Model of `parse_value_states`: consume 24-byte records (16 bytes UUID
little-endian, 8 bytes double little-endian, carried as its bit pattern)
while at least 24 bytes remain; an incomplete trailing record is ignored. -/
def parse_value_states (payload : List Nat) : List (String × Nat) :=
  if h : 24 ≤ payload.length then
    (_uuid_from_bytes_le (payload.take 16), leNat ((payload.drop 16).take 8))
      :: parse_value_states (payload.drop 24)
  else []
termination_by payload.length
decreasing_by simp; omega

/-- Drop all trailing zero bytes, the model of `bytes.rstrip(b"\x00")`. -/
def rstripNul (bs : List Nat) : List Nat :=
  (bs.reverse.dropWhile (fun b => b == 0)).reverse

/-- Continuation-byte test for UTF-8 (0x80..0xBF). -/
def isCont (b : Nat) : Bool := 128 ≤ b && b ≤ 191

/-- Validity test for the first continuation byte of a 3-byte sequence,
which depends on the lead byte (E0 excludes overlong forms, ED excludes
surrogates). -/
def cont3 (b0 b1 : Nat) : Bool :=
  if b0 = 224 then 160 ≤ b1 && b1 ≤ 191
  else if b0 = 237 then 128 ≤ b1 && b1 ≤ 159
  else isCont b1

/-- Validity test for the first continuation byte of a 4-byte sequence (F0
excludes overlong forms, F4 caps at U+10FFFF). -/
def cont4 (b0 b1 : Nat) : Bool :=
  if b0 = 240 then 144 ≤ b1 && b1 ≤ 191
  else if b0 = 244 then 128 ≤ b1 && b1 ≤ 143
  else isCont b1

/-- Model of CPython's UTF-8 decoder with `errors="replace"`: each maximal
subpart of an ill-formed sequence is replaced by one U+FFFD, following the
W3C/Unicode recommendation that CPython implements.  A truncated sequence at
the end of input also becomes one U+FFFD. -/
def utf8DecodeReplace : List Nat → List Char
  | [] => []
  | b0 :: rest =>
    if b0 < 128 then Char.ofNat b0 :: utf8DecodeReplace rest
    else if 194 ≤ b0 && b0 ≤ 223 then
      if rest.isEmpty then [Char.ofNat 0xFFFD]
      else if isCont (rest.headD 0) then
        Char.ofNat ((b0 - 192) * 64 + (rest.headD 0 - 128))
          :: utf8DecodeReplace rest.tail
      else Char.ofNat 0xFFFD :: utf8DecodeReplace rest
    else if 224 ≤ b0 && b0 ≤ 239 then
      if rest.isEmpty then [Char.ofNat 0xFFFD]
      else if cont3 b0 (rest.headD 0) then
        if rest.tail.isEmpty then [Char.ofNat 0xFFFD]
        else if isCont (rest.tail.headD 0) then
          Char.ofNat ((b0 - 224) * 4096 + (rest.headD 0 - 128) * 64
              + (rest.tail.headD 0 - 128)) :: utf8DecodeReplace rest.tail.tail
        else Char.ofNat 0xFFFD :: utf8DecodeReplace rest.tail
      else Char.ofNat 0xFFFD :: utf8DecodeReplace rest
    else if 240 ≤ b0 && b0 ≤ 244 then
      if rest.isEmpty then [Char.ofNat 0xFFFD]
      else if cont4 b0 (rest.headD 0) then
        if rest.tail.isEmpty then [Char.ofNat 0xFFFD]
        else if isCont (rest.tail.headD 0) then
          if rest.tail.tail.isEmpty then [Char.ofNat 0xFFFD]
          else if isCont (rest.tail.tail.headD 0) then
            Char.ofNat ((b0 - 240) * 262144 + (rest.headD 0 - 128) * 4096
                + (rest.tail.headD 0 - 128) * 64 + (rest.tail.tail.headD 0 - 128))
              :: utf8DecodeReplace rest.tail.tail.tail
          else Char.ofNat 0xFFFD :: utf8DecodeReplace rest.tail.tail
        else Char.ofNat 0xFFFD :: utf8DecodeReplace rest.tail
      else Char.ofNat 0xFFFD :: utf8DecodeReplace rest
    else Char.ofNat 0xFFFD :: utf8DecodeReplace rest
termination_by l => l.length
decreasing_by all_goals simp [List.length_tail] <;> omega

/-- Decode bytes to a Python string, model of `.decode("utf-8", errors="replace")`. -/
def pyDecode (bs : List Nat) : String := String.mk (utf8DecodeReplace bs)

/-- Model of `parse_text_states`: each record is 16 bytes state UUID, 16
bytes icon UUID (skipped), a 4-byte little-endian text length, the text
bytes (trailing NULs stripped, then decoded as UTF-8 with replacement), and
padding to a 4-byte boundary.  The loop needs at least 36 bytes for a record
header and stops when a declared text length would run past the payload. -/
def parse_text_states (payload : List Nat) : List (String × String) :=
  if h : 36 ≤ payload.length then
    let uid := _uuid_from_bytes_le (payload.take 16)
    let text_len := leNat ((payload.drop 32).take 4)
    if 36 + text_len ≤ payload.length then
      let text_raw := (payload.drop 36).take text_len
      let text := pyDecode (rstripNul text_raw)
      let padded := text_len + (4 - text_len % 4) % 4
      (uid, text) :: parse_text_states (payload.drop (36 + padded))
    else []
  else []
termination_by payload.length
decreasing_by simp; omega

/-! Encoding side for the TEXT-batch round-trip statements. -/

/-- Padding needed to reach a 4-byte boundary. -/
def pad4 (n : Nat) : Nat := (4 - n % 4) % 4

/-- One source-level TEXT record: state id bytes, icon id bytes, text bytes. -/
structure TextRec where
  sid : List Nat
  icon : List Nat
  text : List Nat
deriving DecidableEq

/-- Wire encoding of one TEXT record as described by the spec: 16-byte state
id, 16-byte icon id, little-endian 4-byte length, text, zero padding to a
4-byte boundary. -/
def encodeTextRec (r : TextRec) : List Nat :=
  r.sid ++ r.icon ++ le32enc r.text.length ++ r.text
    ++ List.replicate (pad4 r.text.length) 0

/-- Concatenation of encoded TEXT records. -/
def encodeTextRecs (rs : List TextRec) : List Nat :=
  (rs.map encodeTextRec).flatten

/-- Well-formedness of a TEXT record for the round-trip statement: 16-byte
identifiers and a text length representable in 4 bytes. -/
def TextRecWF (r : TextRec) : Prop :=
  r.sid.length = 16 ∧ r.icon.length = 16 ∧ r.text.length < 4294967296

/-! ### structure.py — the in-memory mirror data model -/

/-- One value-bearing state of a control (`StateEntry`).  The numeric value
is the bit pattern of the Python float. -/
structure StateEntry where
  state_uuid : String
  state_name : String
  value : Option Nat := none
  text : Option String := none
  is_digital : Bool := false
deriving DecidableEq

/-- Reverse-index entry (`StateRef`): state UUID to owning control and
state name. -/
structure StateRef where
  control_uuid : String
  state_name : String
deriving DecidableEq

/-- A control of the structure file (`Control`); `sub_controls` is the list
of child controls. -/
structure Control where
  uuid : String
  name : String
  type : String
  room_uuid : Option String := none
  cat_uuid : Option String := none
  states : List (String × StateEntry) := []
  sub_controls : List Control := []
  is_text_only : Bool := false

structure Room where
  uuid : String
  name : String
deriving DecidableEq

structure Category where
  uuid : String
  name : String
  type : String := ""
deriving DecidableEq

/-- Runtime state for one Miniserver connection (`MiniserverState`). -/
structure MiniserverState where
  name : String
  serial : String := ""
  firmware : String := ""
  connected : Bool := false
  last_update_ts : Nat := 0
  controls : List (String × Control) := []
  rooms : List (String × Room) := []
  categories : List (String × Category) := []
  state_map : List (String × StateRef) := []

/-- Fixed set of text-only control types (`_TEXT_ONLY_TYPES`). -/
def _TEXT_ONLY_TYPES : List String := ["TextInput", "Webpage", "TextState"]

/-- Fixed set of text-suggesting state names used by `_is_text_only`. -/
def text_state_names : List String := ["textAndIcon", "text", "textColor", "textInput"]

/-- Model of `_is_text_only(control_type, states)`: true when the type is in
the fixed set, otherwise `bool(states and all(name in text_state_names for
name in states))` over the state names (Python's `and` makes an empty states
dict yield `False`). -/
def _is_text_only (control_type : String) (state_names : List String) : Bool :=
  if _TEXT_ONLY_TYPES.contains control_type then true
  else !state_names.isEmpty && state_names.all (fun n => text_state_names.contains n)

/-! ### loxone_client.py — applying decoded batches to the mirror -/

/-- Key-membership test on a states dict, the model of
`ref.state_name in ctrl.states`. -/
def memStates (s : List (String × StateEntry)) (n : String) : Bool :=
  (lookupA s n).isSome

/-- Write a numeric value into the entry of one state name
(`ctrl.states[name].value = value`). -/
def setValue (v : Nat) (e : StateEntry) : StateEntry := { e with value := some v }

/-- Update the states dict at one key with a new numeric value. -/
def updStatesVal (s : List (String × StateEntry)) (n : String) (v : Nat) :
    List (String × StateEntry) :=
  mapVals (fun k e => if k = n then setValue v e else e) s

/-- Update a top-level control's state value. -/
def updCtrlTop (c : Control) (sn : String) (v : Nat) : Control :=
  { c with states := updStatesVal c.states sn v }

/-- Sub-control match used by the VALUE fallback scan:
`sc.uuid == ref.control_uuid and ref.state_name in sc.states`. -/
def subMatch (cu sn : String) (sc : Control) : Bool :=
  sc.uuid == cu && memStates sc.states sn

/-- Update the first matching sub-control in one parent's list; the source
loop `break`s after the first match inside a parent. -/
def updFirstSub : List Control → String → String → Nat → List Control
  | [], _, _, _ => []
  | sc :: rest, cu, sn, v =>
    if subMatch cu sn sc then { sc with states := updStatesVal sc.states sn v } :: rest
    else sc :: updFirstSub rest cu sn v

/-- Top-level write of a VALUE record that resolved to a top-level control. -/
def updateTop (controls : List (String × Control)) (cu sn : String) (v : Nat) :
    List (String × Control) :=
  mapVals (fun k c => if k = cu then updCtrlTop c sn v else c) controls

/-- Fallback write of a VALUE record: every top-level control's sub-control
list is scanned and its first matching sub-control updated. -/
def updateSubs (controls : List (String × Control)) (cu sn : String) (v : Nat) :
    List (String × Control) :=
  mapVals (fun _ c => { c with sub_controls := updFirstSub c.sub_controls cu sn v }) controls

/-- Application of one decoded VALUE record, the body of the
`for uuid_str, value in entries` loop of `_process_message`. -/
def applyValueEntry (st : MiniserverState) (id : String) (v : Nat) : MiniserverState :=
  match lookupA st.state_map id with
  | none => st
  | some ref =>
    match lookupA st.controls ref.control_uuid with
    | some c =>
      if memStates c.states ref.state_name then
        { st with controls := updateTop st.controls ref.control_uuid ref.state_name v }
      else
        { st with controls := updateSubs st.controls ref.control_uuid ref.state_name v }
    | none =>
      { st with controls := updateSubs st.controls ref.control_uuid ref.state_name v }

/-- Application of a whole decoded VALUE batch, record by record. -/
def applyValueEntries (st : MiniserverState) (es : List (String × Nat)) : MiniserverState :=
  es.foldl (fun s p => applyValueEntry s p.1 p.2) st

/-- The VALUE branch of `_process_message` after decoding: apply all records,
then `if entries: last_update_ts = time.time()` with `now` the wall clock. -/
def processValue (st : MiniserverState) (es : List (String × Nat)) (now : Nat) :
    MiniserverState :=
  let st' := applyValueEntries st es
  if es.isEmpty then st' else { st' with last_update_ts := now }

/-- Read-back of the numeric value a state id resolves to: follow the
reverse index, prefer the top-level control owning the state name, otherwise
scan sub-controls of each top-level control in order.  `none` means the id
does not resolve to any state entry. -/
def readSubList (subs : List Control) (cu sn : String) : Option (Option Nat) :=
  (subs.find? (subMatch cu sn)).bind (fun sc => (lookupA sc.states sn).map (fun e => e.value))

/-- Scan of the top-level controls for the first parent owning a matching
sub-control, read side of the fallback branch. -/
def readSubs : List (String × Control) → String → String → Option (Option Nat)
  | [], _, _ => none
  | (_, p) :: rest, cu, sn =>
    match readSubList p.sub_controls cu sn with
    | some r => some r
    | none => readSubs rest cu sn

/-- Resolution of a state id to the current numeric value of its state
entry; mirrors the branch structure of the VALUE update path. -/
def resolveValue (st : MiniserverState) (id : String) : Option (Option Nat) :=
  match lookupA st.state_map id with
  | none => none
  | some ref =>
    match lookupA st.controls ref.control_uuid with
    | some c =>
      if memStates c.states ref.state_name then
        (lookupA c.states ref.state_name).map (fun e => e.value)
      else readSubs st.controls ref.control_uuid ref.state_name
    | none => readSubs st.controls ref.control_uuid ref.state_name

/-- Write a text into the entry of one state name
(`ctrl.states[name].text = text`). -/
def updStatesText (s : List (String × StateEntry)) (n : String) (t : String) :
    List (String × StateEntry) :=
  mapVals (fun k e => if k = n then { e with text := some t } else e) s

/-- Application of one decoded TEXT record, the body of the TEXT branch of
`_process_message`: only top-level controls are consulted, unresolved
records are skipped, and only the `text` field is written. -/
def applyTextEntry (st : MiniserverState) (id : String) (t : String) : MiniserverState :=
  match lookupA st.state_map id with
  | none => st
  | some ref =>
    match lookupA st.controls ref.control_uuid with
    | none => st
    | some c =>
      if memStates c.states ref.state_name then
        { st with controls := mapVals (fun k c' =>
            if k = ref.control_uuid then
              { c' with states := updStatesText c'.states ref.state_name t }
            else c') st.controls }
      else st

/-- Application of a whole decoded TEXT batch. -/
def applyTextEntries (st : MiniserverState) (es : List (String × String)) : MiniserverState :=
  es.foldl (fun s p => applyTextEntry s p.1 p.2) st

/-- Resolution test of the TEXT update path: the record is applied iff its
state id is in the reverse index and the owning control is a top-level
control carrying the state name. -/
def textResolves (st : MiniserverState) (id : String) : Bool :=
  match lookupA st.state_map id with
  | none => false
  | some ref =>
    match lookupA st.controls ref.control_uuid with
    | none => false
    | some c => memStates c.states ref.state_name

/-- Erase the `text` field of every state entry of every top-level control;
two states equal under this erasure differ at most in top-level texts. -/
def eraseTopText (st : MiniserverState) : MiniserverState :=
  { st with controls := mapVals (fun _ c =>
      { c with states := mapVals (fun _ e => { e with text := none }) c.states }) st.controls }

/-- Read of the text currently stored at a top-level control's state entry;
outer `none` means no such entry exists. -/
def readTextTop (st : MiniserverState) (cu sn : String) : Option (Option String) :=
  (lookupA st.controls cu).bind (fun c => (lookupA c.states sn).map (fun e => e.text))

/-- Model of `_process_message` on a raw frame (header plus payload): VALUE
and TEXT batches mutate the mirror, KEEPALIVE and unknown types are ignored,
OUT_OF_SERVICE raises `ConnectionClosed` (modelled as `none`), and a short
frame is logged and ignored. -/
def _process_message (st : MiniserverState) (data : List Nat) (now : Nat) :
    Option MiniserverState :=
  if data.length < 8 then some st
  else match parse_header (data.take 8) with
  | none => some st
  | some h =>
    let payload := data.drop 8
    if h.msg_type = 2 then some (processValue st (parse_value_states payload) now)
    else if h.msg_type = 3 then some (applyTextEntries st (parse_text_states payload))
    else if h.msg_type = 6 then some st
    else if h.msg_type = 5 then none
    else some st

/-- Model of the receive loop of `LoxoneClient.run`: the loop waits for the
next frame with no read deadline, records the arrival time of every frame in
`_last_recv_time`, processes the frame, and exits only when the connection
closes (end of the frame list) or `_process_message` raises.  Each input
frame carries its arrival time on the monotonic clock. -/
def receive_loop : MiniserverState → Nat → List (Nat × List Nat) → MiniserverState × Nat
  | st, last, [] => (st, last)
  | st, _, (t, data) :: rest =>
    match _process_message st data t with
    | some st' => receive_loop st' t rest
    | none => (st, t)

/-- Model of the configuration record for one Miniserver
(`MiniserverConfig` in config.py), including the encryption flags its
docstring documents. -/
structure MiniserverConfig where
  name : String
  host : String
  port : Nat := 80
  ssl_port : Nat := 443
  username : String := ""
  password : String := ""
  use_encryption : Bool := false
  force_encryption : Bool := false
deriving DecidableEq

/-- The WebSocket URI built by `LoxoneClient.run`: the source computes
`f"ws://{self._config.host}:{self._config.port}/ws/rfc6455"` before the
connection loop and never consults the encryption flags. -/
def run_uri (cfg : MiniserverConfig) : String :=
  "ws://" ++ cfg.host ++ ":" ++ toString cfg.port ++ "/ws/rfc6455"

/-! ### otlp_exporter.py — export state machine -/

/-- OTLP export operational state (`ExportState`). -/
inductive ExportState where
  | DISABLED
  | IDLE
  | EXPORTING
  | RETRYING
  | FAILED
deriving DecidableEq

/-- Model of `_calculate_backoff`: `min(base * multiplier^(failures-1),
300)` seconds with base 1 and multiplier 2; a non-positive count returns the
base delay.  All values produced are whole seconds, so the Python floats are
carried as naturals. -/
def _calculate_backoff (consecutive_failures : Nat) : Nat :=
  if consecutive_failures = 0 then 1
  else min (1 * 2 ^ (consecutive_failures - 1)) 300

/-- Model of `_handle_failure`, driven by an oracle of attempt outcomes
(`oracle i` is the result of the i-th call of `_export_once`): increment the
failure count; at 10 or more latch `FAILED`; otherwise enter `RETRYING`,
sleep the backoff, retry inline, and on another failure recurse.  Returns
the final failure count and state, the list of sleeps performed, and the
next attempt index. -/
def _handle_failure (oracle : Nat → Bool) (i : Nat) (cf : Nat) :
    Nat × ExportState × List Nat × Nat :=
  let f := cf + 1
  if 10 ≤ f then (f, ExportState.FAILED, [], i)
  else
    let d := _calculate_backoff f
    if oracle i then (0, ExportState.IDLE, [d], i + 1)
    else
      let r := _handle_failure oracle (i + 1) f
      (r.1, r.2.1, d :: r.2.2.1, r.2.2.2)
termination_by 10 - cf
decreasing_by simp at *; omega

/-- One scheduled tick of `_export_loop` after the interval sleep: the
`_should_export` check resets a latched `FAILED` state to `IDLE` with zero
failures, then one export attempt runs and its outcome is classified by
`_handle_success` or `_handle_failure`.  Input and output carry the
consecutive-failure count and state; the result also lists the backoff
sleeps performed inside the tick and the next attempt index (so that the
number of attempts spent by the tick is the index difference). -/
def otlp_tick (oracle : Nat → Bool) (i : Nat) (cf : Nat) (s : ExportState) :
    Nat × ExportState × List Nat × Nat :=
  let cf0 := if s = ExportState.FAILED then 0 else cf
  if oracle i then (0, ExportState.IDLE, [], i + 1)
  else _handle_failure oracle (i + 1) cf0

/-! ### server.py — the /healthz status rule -/

/-- Model of the status computation of `_healthz_handler`: from the
`connected` flags of all configured Miniservers and the OTLP state (absent
when no OTLP exporter is configured), compute the JSON `status` string and
the HTTP status code.  A latched OTLP `FAILED` downgrades an otherwise
healthy status to degraded after the HTTP code was chosen. -/
def healthz (connected : List Bool) (otlp : Option ExportState) : String × Nat :=
  let connected_count := connected.count true
  let total_count := connected.length
  let base :=
    if connected_count = total_count ∧ 0 < total_count then ("healthy", 200)
    else if 0 < connected_count then ("degraded", 200)
    else ("unhealthy", 503)
  if otlp = some ExportState.FAILED ∧ base.1 = "healthy" then ("degraded", base.2)
  else base

/-! ### config.py — exporter configuration (fields read by the projector) -/

/-- Model of `OTLPConfiguration`. -/
structure OTLPConfiguration where
  enabled : Bool := false
  endpoint : String := ""
  protocol : String := "grpc"
  interval_seconds : Nat := 30
  timeout_seconds : Nat := 15
deriving DecidableEq

/-- Model of `ExporterConfig`. -/
structure ExporterConfig where
  miniservers : List MiniserverConfig := []
  listen_port : Nat := 9504
  listen_address : String := "0.0.0.0"
  log_level : String := "info"
  log_format : String := "json"
  exclude_rooms : List String := []
  exclude_types : List String := []
  exclude_names : List String := []
  include_text_values : Bool := false
  opentelemetry : OTLPConfiguration := {}
deriving DecidableEq

/-! ### Shell-style glob matching, the model of `fnmatch.fnmatch` on a
POSIX platform (where case normalisation is the identity). -/

/-- Compiled glob pattern token. -/
inductive GlobTok where
  | star
  | anyChar
  | lit (c : Char)
  | charSet (negated : Bool) (members : List Char)
deriving DecidableEq

/-- Scan for the closing bracket of a character class, returning the class
content and the remaining pattern. -/
def splitClose : List Char → Option (List Char × List Char)
  | [] => none
  | ']' :: rest => some ([], rest)
  | c :: rest => (splitClose rest).map (fun p => (c :: p.1, p.2))

/-- Length bound for `splitClose`. -/
theorem splitClose_length :
    ∀ l content rest, splitClose l = some (content, rest) → rest.length < l.length := by
  intro l
  induction l with
  | nil => intro c r h; simp [splitClose] at h
  | cons x xs ih =>
    intro c r h
    by_cases hx : x = ']'
    · subst hx
      simp [splitClose] at h
      simp [← h.2]
    · rw [show splitClose (x :: xs) = (splitClose xs).map (fun p => (x :: p.1, p.2)) by
        cases x <;> simp_all [splitClose]] at h
      match h2 : splitClose xs with
      | none => rw [h2] at h; simp at h
      | some (c2, r2) =>
        rw [h2] at h
        simp at h
        have := ih c2 r2 h2
        simp [← h.2]; omega

/-- Parse the body of a bracketed character class (after the opening `[` and
the optional `!`): a leading `]` is a literal member, the rest runs to the
closing bracket. -/
def parseClassBody (neg : Bool) (l : List Char) :
    Option (Bool × List Char × List Char) :=
  if l.headD ' ' = ']' then (splitClose l.tail).map (fun p => (neg, ']' :: p.1, p.2))
  else (splitClose l).map (fun p => (neg, p.1, p.2))

/-- Length bound for `parseClassBody`. -/
theorem parseClassBody_length (neg : Bool) (l : List Char) (n : Bool)
    (c rest : List Char) :
    parseClassBody neg l = some (n, c, rest) → rest.length < l.length := by
  intro h
  unfold parseClassBody at h
  split at h
  · match h2 : splitClose l.tail with
    | none => rw [h2] at h; simp at h
    | some (c2, r2) =>
      rw [h2] at h
      have h3 := splitClose_length l.tail c2 r2 h2
      have h4 : l.tail.length ≤ l.length := by
        simp [List.length_tail]
      simp at h
      simp [← h.2.2]
      omega
  · match h2 : splitClose l with
    | none => rw [h2] at h; simp at h
    | some (c2, r2) =>
      rw [h2] at h
      have := splitClose_length l c2 r2 h2
      simp at h
      simp [← h.2.2]
      omega

/-- Parse a bracketed character class after an opening `[`: an optional `!`
negation, then the class body.  Returns the negation flag, the member list
and the rest of the pattern. -/
def parseClass (ps : List Char) : Option (Bool × List Char × List Char) :=
  if ps.headD ' ' = '!' then parseClassBody true ps.tail
  else parseClassBody false ps

/-- Length bound for `parseClass`, used for the glob compiler termination. -/
theorem parseClass_length (ps : List Char) (n : Bool) (c rest : List Char) :
    parseClass ps = some (n, c, rest) → rest.length < ps.length := by
  intro h
  unfold parseClass at h
  split at h
  · have := parseClassBody_length true ps.tail n c rest h
    simp [List.length_tail] at this
    omega
  · exact parseClassBody_length false ps n c rest h

/-- Compile a glob pattern into tokens; an unterminated bracket is treated
as a literal bracket, matching `fnmatch.translate`. -/
def compileGlob (p : List Char) : List GlobTok :=
  match p with
  | [] => []
  | '*' :: ps => GlobTok.star :: compileGlob ps
  | '?' :: ps => GlobTok.anyChar :: compileGlob ps
  | '[' :: ps =>
    match h : parseClass ps with
    | some (negated, content, rest) => GlobTok.charSet negated content :: compileGlob rest
    | none => GlobTok.lit '[' :: compileGlob ps
  | c :: ps => GlobTok.lit c :: compileGlob ps
termination_by p.length
decreasing_by
  all_goals simp_all
  all_goals first
  | omega
  | (have hlt := parseClass_length _ _ _ _ h
     omega)

/-- Membership in a character class, with `a-b` ranges. -/
def setContains : List Char → Char → Bool
  | a :: '-' :: b :: rest, c =>
    (decide (a ≤ c) && decide (c ≤ b)) || setContains rest c
  | a :: rest, c => (a = c) || setContains rest c
  | [], _ => false

/-- Matcher of a compiled glob against a character list. -/
def tokMatch : List GlobTok → List Char → Bool
  | [], s => s.isEmpty
  | GlobTok.star :: ps, [] => tokMatch ps []
  | GlobTok.star :: ps, c :: cs => tokMatch ps (c :: cs) || tokMatch (GlobTok.star :: ps) cs
  | GlobTok.anyChar :: ps, _ :: cs => tokMatch ps cs
  | GlobTok.anyChar :: _, [] => false
  | GlobTok.lit p :: ps, c :: cs => (p = c) && tokMatch ps cs
  | GlobTok.lit _ :: _, [] => false
  | GlobTok.charSet neg mem :: ps, c :: cs =>
    (if setContains mem c then !neg else neg) && tokMatch ps cs
  | GlobTok.charSet _ _ :: _, [] => false
termination_by ps s => (ps.length, s.length)

/-- Model of `fnmatch.fnmatch(name, pattern)`. -/
def fnmatch (name pattern : String) : Bool :=
  tokMatch (compileGlob pattern.data) name.data

/-! ### Conversion of small naturals to IEEE-754 double bit patterns, the
model of Python's implicit `int → float` conversions at metric emission
(`float(total_discovered)` and friends).  Exact below 2^53, round half to
even above. -/

/-- Bit pattern of the IEEE-754 binary64 value nearest to a natural. -/
def natToDoubleBits (n : Nat) : Nat :=
  if n = 0 then 0
  else
    let k := Nat.log2 n
    if k ≤ 52 then (k + 1023) * 2 ^ 52 + (n * 2 ^ (52 - k) - 2 ^ 52)
    else
      let shift := k - 52
      let q := n / 2 ^ shift
      let r := n % 2 ^ shift
      let q' := if 2 ^ (shift - 1) < r ∨ (r = 2 ^ (shift - 1) ∧ q % 2 = 1) then q + 1 else q
      let em := if q' = 2 ^ 53 then (k + 1, 0) else (k, q' - 2 ^ 52)
      if 1024 ≤ em.1 then 2047 * 2 ^ 52 else (em.1 + 1023) * 2 ^ 52 + em.2

/-! ### metrics.py — the Prometheus projector -/

/-- Build metadata constants.  Modelled from the spec: the package module
carrying `__version__`, `__commit__` and `__build_date__` is not under src/;
the spec only names them as build-info labels, so fixed placeholder strings
stand in (their values flow into one info family and nothing else). -/
def loxone_version : String := "1.0.0"

/-- Build metadata constant, see `loxone_version`. -/
def loxone_commit : String := "unknown"

/-- Build metadata constant, see `loxone_version`. -/
def loxone_build_date : String := "unknown"

/-- Label names of `loxone_control_value` (`_CONTROL_LABELS`). -/
def _CONTROL_LABELS : List String :=
  ["miniserver", "name", "room", "category", "type", "subcontrol"]

/-- One projected metric family: a gauge family with numeric samples (value
as a double bit pattern) or an info family with string-valued samples. -/
inductive MetricFamily where
  | gauge (name doc : String) (labelNames : List String)
      (samples : List (List String × Nat))
  | info (name doc : String) (labelNames : List String)
      (samples : List (List String × List (String × String)))
deriving DecidableEq

/-- Name of a metric family. -/
def famName : MetricFamily → String
  | MetricFamily.gauge n _ _ _ => n
  | MetricFamily.info n _ _ _ => n

/-- Model of `LoxoneCollector._should_exclude`: room name in the exclusion
list (when the filter is set and the control has a room), type in the type
exclusion list, or name matching any exclusion glob. -/
def _should_exclude (cfg : ExporterConfig) (control : Control)
    (rooms : List (String × Room)) : Bool :=
  (match cfg.exclude_rooms, control.room_uuid with
   | [], _ => false
   | _, none => false
   | rs, some ru =>
     match lookupA rooms ru with
     | some room => rs.contains room.name
     | none => false)
  || (!cfg.exclude_types.isEmpty && cfg.exclude_types.contains control.type)
  || cfg.exclude_names.any (fun pat => fnmatch control.name pat)

/-- Room label of a control: `rooms.get(control.room_uuid or "", Room("",""))
.name`, i.e. the empty string when the control has no room or the room id is
unknown. -/
def roomLabel (rooms : List (String × Room)) (control : Control) : String :=
  match control.room_uuid with
  | some ru => (match lookupA rooms ru with | some r => r.name | none => "")
  | none => ""

/-- Category label of a control, empty when absent or unknown. -/
def catLabel (cats : List (String × Category)) (control : Control) : String :=
  match control.cat_uuid with
  | some cu => (match lookupA cats cu with | some c => c.name | none => "")
  | none => ""

mutual

/-- Model of `LoxoneCollector._collect_control_metrics`: returns the gauge
samples, the info samples and the exported-control count contributed by one
control and its sub-controls, in emission order.  Excluded controls
contribute nothing; a text-only control contributes info samples (one per
state with a text) only when text values are opted in and never recurses
into sub-controls; a numeric control contributes one gauge sample per state
with a value and recurses. -/
def _collect_control_metrics (cfg : ExporterConfig) (ms_name : String)
    (rooms : List (String × Room)) (categories : List (String × Category))
    (control : Control) :
    List (List String × Nat) × List (List String × List (String × String)) × Nat :=
  if _should_exclude cfg control rooms then ([], [], 0)
  else
    let room_name := roomLabel rooms control
    let cat_name := catLabel categories control
    if control.is_text_only then
      if cfg.include_text_values then
        (([] : List (List String × Nat)),
         control.states.foldr (fun p acc =>
           match p.2.text with
           | some t =>
             ([ms_name, control.name, room_name, cat_name, control.type,
               p.2.state_name], [("value", t)]) :: acc
           | none => acc) [],
         1)
      else ([], [], 0)
    else
      let own := control.states.foldr (fun p acc =>
        match p.2.value with
        | some bits =>
          ([ms_name, control.name, room_name, cat_name, control.type,
            p.2.state_name], bits) :: acc
        | none => acc) []
      let exported0 := if own.isEmpty then 0 else 1
      let sub := _collect_control_list cfg ms_name rooms categories control.sub_controls
      (own ++ sub.1, sub.2.1, exported0 + sub.2.2)
termination_by sizeOf control
decreasing_by cases control <;> simp <;> omega

/-- Fold of `_collect_control_metrics` over a list of controls, accumulating
samples and counts in order. -/
def _collect_control_list (cfg : ExporterConfig) (ms_name : String)
    (rooms : List (String × Room)) (categories : List (String × Category)) :
    List Control →
    List (List String × Nat) × List (List String × List (String × String)) × Nat
  | [] => ([], [], 0)
  | c :: rest =>
    let r1 := _collect_control_metrics cfg ms_name rooms categories c
    let r2 := _collect_control_list cfg ms_name rooms categories rest
    (r1.1 ++ r2.1, r1.2.1 ++ r2.2.1, r1.2.2 + r2.2.2)
termination_by l => sizeOf l
decreasing_by all_goals simp <;> omega

end

/-- Model of `LoxoneCollector.collect`: the stream of metric families
yielded for one scrape.  `durationBits` is the bit pattern of
`time.monotonic() - start`, the only clock reading that flows into the
output. -/
def collect (states : List MiniserverState) (cfg : ExporterConfig)
    (durationBits : Nat) : List MetricFamily :=
  let msResults := states.map (fun ms =>
    (ms, _collect_control_list cfg ms.name ms.rooms ms.categories
      (ms.controls.map (fun p => p.2))))
  [MetricFamily.gauge "loxone_control_value"
      "Current numeric value of a control state" _CONTROL_LABELS
      ((msResults.map (fun p => p.2.1)).flatten)]
  ++ (if cfg.include_text_values then
        [MetricFamily.info "loxone_control" "Text value of a control state"
          _CONTROL_LABELS ((msResults.map (fun p => p.2.2.1)).flatten)]
      else [])
  ++ [MetricFamily.gauge "loxone_exporter_connected"
        "WebSocket connection status per miniserver" ["miniserver"]
        (states.map (fun ms => ([ms.name], natToDoubleBits (if ms.connected then 1 else 0)))),
      MetricFamily.gauge "loxone_exporter_last_update_timestamp_seconds"
        "Unix timestamp of last received value event" ["miniserver"]
        (states.map (fun ms => ([ms.name], natToDoubleBits ms.last_update_ts))),
      MetricFamily.gauge "loxone_exporter_controls_discovered"
        "Controls found in structure file" ["miniserver"]
        (states.map (fun ms => ([ms.name], natToDoubleBits (ms.controls.length
          + (ms.controls.map (fun p => p.2.sub_controls.length)).sum)))),
      MetricFamily.gauge "loxone_exporter_controls_exported"
        "Controls exported after filtering" ["miniserver"]
        (msResults.map (fun p => ([p.1.name], natToDoubleBits p.2.2.2))),
      MetricFamily.gauge "loxone_exporter_up" "1 if exporter process is running" []
        [([], natToDoubleBits 1)],
      MetricFamily.gauge "loxone_exporter_scrape_duration_seconds"
        "Time taken to generate /metrics response" [] [([], durationBits)],
      MetricFamily.info "loxone_exporter_build" "Build metadata" []
        [([], [("version", loxone_version), ("commit", loxone_commit),
               ("build_date", loxone_build_date)])]]

/-- Value of a single-sample unlabelled gauge family of a given name inside
a family stream, used to locate the scrape-duration sample. -/
def famValue (fams : List MetricFamily) (n : String) : Option Nat :=
  match fams.find? (fun f => famName f == n) with
  | some (MetricFamily.gauge _ _ _ [([], d)]) => some d
  | _ => none

/-- Model of `_metrics_handler` on the success path: HTTP 200 with the body
determined by serializing the collected families (the text serializer of
prometheus_client is a fixed deterministic function of the family stream, so
body bytes are identified with the family stream). -/
def _metrics_handler (states : List MiniserverState) (cfg : ExporterConfig)
    (durationBits : Nat) : Nat × List MetricFamily :=
  (200, collect states cfg durationBits)

/-- Lowercase-hex-digit test on a character, used to state the canonical
UUID format. -/
def isHexChar (c : Char) : Bool :=
  (48 ≤ c.toNat && c.toNat ≤ 57) || (97 ≤ c.toNat && c.toNat ≤ 102)

/-! ### Concrete instances used by counterexamples and witnesses -/

/-- A state entry of the running example. -/
def exEntry : StateEntry := { state_uuid := "s1", state_name := "active" }

/-- A one-state Switch control. -/
def exControl : Control :=
  { uuid := "c1", name := "Light", type := "Switch",
    states := [("active", exEntry)], sub_controls := [] }

/-- A mirror with one control and one reverse-index entry. -/
def exState : MiniserverState :=
  { name := "home", controls := [("c1", exControl)],
    state_map := [("s1", ⟨"c1", "active"⟩)] }

/-- A mirror whose reverse index is keyed by the all-zero canonical UUID, for
end-to-end frames. -/
def exStateZero : MiniserverState :=
  { name := "home", controls := [("c1", exControl)],
    state_map := [("00000000-0000-0000-0000-000000000000", ⟨"c1", "active"⟩)] }

/-- A complete VALUE message frame: header (type 2, length 24), the all-zero
state UUID, and the double 1.0 in little-endian bytes. -/
def exValueMsg : List Nat :=
  [3, 2, 0, 0, 24, 0, 0, 0] ++ List.replicate 16 0 ++ [0, 0, 0, 0, 0, 0, 240, 63]

/-- A TEXT batch payload with one record: all-zero state and icon ids,
declared text length 3, text bytes "a\x00\x00", one padding byte. -/
def exTextPayload : List Nat :=
  List.replicate 32 0 ++ [3, 0, 0, 0, 97, 0, 0, 0]

/-- A well-formed TEXT record carrying the text "hi". -/
def exTextRec : TextRec :=
  ⟨List.replicate 16 0, List.replicate 16 0, [104, 105]⟩

/-- A truncated TEXT record: a full 36-byte header declaring 200 text bytes
that are not present. -/
def exBadTextTail : List Nat :=
  List.replicate 32 0 ++ [200, 0, 0, 0]

/-- An oracle under which every export attempt fails. -/
def allFailOracle : Nat → Bool := fun _ => false

/-- A Miniserver configuration that requests encryption through both flags. -/
def exEncryptedConfig : MiniserverConfig :=
  { name := "home"
    host := "192.168.1.10"
    port := 80
    ssl_port := 443
    username := "u"
    password := "p"
    use_encryption := true
    force_encryption := true }

/-! # Theorems -/

/-! ### Generic association-list lemmas -/

theorem lookupA_mapVals {α : Type} (f : String → α → α) (l : List (String × α))
    (k : String) : lookupA (mapVals f l) k = (lookupA l k).map (f k) := by
  induction l with
  | nil => rfl
  | cons p rest ih =>
    by_cases hk : p.1 = k
    · simp [mapVals, lookupA, hk]
    · simp [mapVals, lookupA, hk] at ih ⊢
      exact ih

/-! ### C3 — connection URI ignores the encryption configuration -/

/-- Claim C3 (code_bug evidence): `LoxoneClient.run` computes a fixed
`ws://` URI from host and port; even a configuration with
`use_encryption = true` and `force_encryption = true` is dialled over
plaintext `ws://`, never `wss://`, although the `MiniserverConfig`
docstring documents those flags as enabling `wss://`. -/
theorem connect_uri_ignores_encryption :
    run_uri exEncryptedConfig = "ws://192.168.1.10:80/ws/rfc6455"
    ∧ (run_uri exEncryptedConfig).data.take 6 ≠ "wss://".data := by
  constructor
  · rfl
  · intro hpre
    simp [run_uri, exEncryptedConfig] at hpre

/-! ### C4 — the text-only flag on a control with zero states -/

/-- Claim C4 counterexample: a `Switch` control with zero states.  The
claim's universal quantification over state names holds vacuously, so the
claim predicts a true text-only flag, but `_is_text_only` computes `False`
because Python's `bool(states and ...)` is falsy on an empty dict. -/
theorem text_only_zero_states_counterexample :
    _is_text_only "Switch" [] = false
    ∧ ¬ (_is_text_only "Switch" [] = true ↔
        ("Switch" ∈ _TEXT_ONLY_TYPES ∨ ∀ n ∈ ([] : List String), n ∈ text_state_names)) := by
  constructor
  · rfl
  · decide

/-- Claim C4 (amended): the text-only flag is true iff the control type is
in the fixed text-type set, or the control has at least one state and every
state name is one of the text state names. -/
theorem text_only_iff_amended (t : String) (ns : List String) :
    _is_text_only t ns = true ↔
      (t ∈ _TEXT_ONLY_TYPES ∨ (ns ≠ [] ∧ ∀ n ∈ ns, n ∈ text_state_names)) := by
  unfold _is_text_only
  by_cases hc : _TEXT_ONLY_TYPES.contains t
  · simp only [hc, if_true]
    simp at hc
    simp [hc]
  · simp only [hc, if_false, Bool.if_false_left]
    simp at hc
    simp [hc, List.all_eq_true, List.isEmpty_iff]

/-! ### C7 — /healthz status rule -/

/-- Claim C7 counterexample: one configured Miniserver, connected, with the
OTLP exporter latched in `FAILED`.  All Miniservers are connected, yet the
handler answers status "degraded" and not "healthy", refuting the claim's
first iff as stated. -/
theorem healthz_failed_otlp_counterexample :
    healthz [true] (some ExportState.FAILED) = ("degraded", 200)
    ∧ [true].count true = [true].length
    ∧ ¬ ((healthz [true] (some ExportState.FAILED)).1 = "healthy" ↔
          [true].count true = [true].length) := by
  refine ⟨by rfl, by rfl, ?_⟩
  intro h
  have := h.mpr (by rfl)
  simp [healthz] at this

/-- Claim C7 (amended): with at least one configured Miniserver the JSON
status is "healthy" with HTTP 200 iff all Miniservers are connected and the
OTLP state is not a latched FAILED; "degraded" with HTTP 200 iff some but
not all are connected, or all are connected while the OTLP state is FAILED;
"unhealthy" with HTTP 503 iff none are connected. -/
theorem healthz_status_amended (l : List Bool) (o : Option ExportState)
    (h : 0 < l.length) :
    ((healthz l o).1 = "healthy" ∧ (healthz l o).2 = 200
        ↔ l.count true = l.length ∧ o ≠ some ExportState.FAILED)
    ∧ ((healthz l o).1 = "degraded" ∧ (healthz l o).2 = 200
        ↔ (0 < l.count true ∧ l.count true < l.length)
          ∨ (l.count true = l.length ∧ o = some ExportState.FAILED))
    ∧ ((healthz l o).1 = "unhealthy" ∧ (healthz l o).2 = 503
        ↔ l.count true = 0) := by
  have hle : l.count true ≤ l.length := List.count_le_length true l
  have hnil : l ≠ [] := List.ne_nil_of_length_pos h
  by_cases hall : l.count true = l.length
  · by_cases ho : o = some ExportState.FAILED
    · refine ⟨?_, ?_, ?_⟩ <;> (simp [healthz, hall, h, ho, hnil]; try omega)
    · refine ⟨?_, ?_, ?_⟩ <;> (simp [healthz, hall, h, ho, hnil]; try omega)
  · have hlt : l.count true < l.length := by omega
    by_cases hpos : 0 < l.count true
    · refine ⟨?_, ?_, ?_⟩ <;> (simp [healthz, hall, hpos, hlt]; try omega)
    · have hz : l.count true = 0 := by omega
      have hcond : ¬(0 = l.length ∧ 0 < l.length) := by omega
      refine ⟨?_, ?_, ?_⟩ <;> (simp [healthz, hall, hpos, hz, hcond]; try omega)

/-- Witness for `healthz_status_amended` at one connected Miniserver with no
OTLP exporter. -/
theorem healthz_status_amended_witness :
    ((healthz [true] none).1 = "healthy" ∧ (healthz [true] none).2 = 200
        ↔ [true].count true = [true].length ∧ none ≠ some ExportState.FAILED)
    ∧ ((healthz [true] none).1 = "degraded" ∧ (healthz [true] none).2 = 200
        ↔ (0 < [true].count true ∧ [true].count true < [true].length)
          ∨ ([true].count true = [true].length ∧ none = some ExportState.FAILED))
    ∧ ((healthz [true] none).1 = "unhealthy" ∧ (healthz [true] none).2 = 503
        ↔ [true].count true = 0) :=
  healthz_status_amended [true] none (by decide)

/-! ### C2 — OTLP retry state machine -/

/-- Invariants of `_handle_failure` when entered with at most 9 prior
consecutive failures: the final count stays at most 10, a final `FAILED`
state carries exactly 10 failures, a final `IDLE` state carries 0, the
handler only terminates in those two states, and every sleep it performs is
`min(2^(k-1), 300)` seconds for the failure count `k` in 1..9 current at
that point. -/
theorem handle_failure_spec (oracle : Nat → Bool) :
    ∀ cf i, cf ≤ 9 →
      (_handle_failure oracle i cf).1 ≤ 10
      ∧ ((_handle_failure oracle i cf).2.1 = ExportState.FAILED →
          (_handle_failure oracle i cf).1 = 10)
      ∧ ((_handle_failure oracle i cf).2.1 = ExportState.IDLE →
          (_handle_failure oracle i cf).1 = 0)
      ∧ ((_handle_failure oracle i cf).2.1 = ExportState.FAILED
          ∨ (_handle_failure oracle i cf).2.1 = ExportState.IDLE)
      ∧ (∀ d ∈ (_handle_failure oracle i cf).2.2.1,
          ∃ k, 1 ≤ k ∧ k ≤ 9 ∧ d = min (2 ^ (k - 1)) 300) := by
  suffices H : ∀ n cf i, 9 - cf ≤ n → cf ≤ 9 →
      (_handle_failure oracle i cf).1 ≤ 10
      ∧ ((_handle_failure oracle i cf).2.1 = ExportState.FAILED →
          (_handle_failure oracle i cf).1 = 10)
      ∧ ((_handle_failure oracle i cf).2.1 = ExportState.IDLE →
          (_handle_failure oracle i cf).1 = 0)
      ∧ ((_handle_failure oracle i cf).2.1 = ExportState.FAILED
          ∨ (_handle_failure oracle i cf).2.1 = ExportState.IDLE)
      ∧ (∀ d ∈ (_handle_failure oracle i cf).2.2.1,
          ∃ k, 1 ≤ k ∧ k ≤ 9 ∧ d = min (2 ^ (k - 1)) 300) by
    intro cf i hcf
    exact H 9 cf i (by omega) hcf
  intro n
  induction n with
  | zero =>
    intro cf i h9 hcf
    have hcf9 : cf = 9 := by omega
    subst hcf9
    rw [_handle_failure]
    norm_num
    decide
  | succ m ih =>
    intro cf i h9 hcf
    by_cases hcf9 : cf = 9
    · subst hcf9
      rw [_handle_failure]
      norm_num
      decide
    · rw [_handle_failure]
      have hlt : ¬ (10 ≤ cf + 1) := by omega
      simp only [hlt, if_false]
      by_cases ho : oracle i
      · simp only [ho, if_true]
        refine ⟨by omega, by simp, by simp, by simp, ?_⟩
        intro d hd
        simp at hd
        refine ⟨cf + 1, by omega, by omega, ?_⟩
        simp [hd, _calculate_backoff]
      · simp only [ho, if_false]
        have hrec := ih (cf + 1) (i + 1) (by omega) (by omega)
        refine ⟨hrec.1, hrec.2.1, hrec.2.2.1, hrec.2.2.2.1, ?_⟩
        intro d hd
        simp at hd
        rcases hd with hd | hd
        · refine ⟨cf + 1, by omega, by omega, ?_⟩
          simp [hd, _calculate_backoff]
        · exact hrec.2.2.2.2 d hd

/-- Claim C2 counterexample: one scheduled tick entered with zero failures
under an always-failing collector performs ten export attempts (one initial
plus nine inline retries through the recursive failure handler) before
latching `FAILED`, refuting "retries exactly once inline before returning to
the scheduler", which would allow at most two attempts per tick. -/
theorem otlp_inline_retry_counterexample :
    otlp_tick allFailOracle 0 0 ExportState.IDLE
      = (10, ExportState.FAILED, [1, 2, 4, 8, 16, 32, 64, 128, 256], 10)
    ∧ ¬ ((otlp_tick allFailOracle 0 0 ExportState.IDLE).2.2.2 - 0 ≤ 2) := by
  have h : otlp_tick allFailOracle 0 0 ExportState.IDLE
      = (10, ExportState.FAILED, [1, 2, 4, 8, 16, 32, 64, 128, 256], 10) := by
    simp [otlp_tick, allFailOracle, _handle_failure, _calculate_backoff]
  exact ⟨h, by rw [h]; decide⟩

/-- Claim C2 (amended): across one scheduled tick of the OTLP loop the
consecutive-failure count stays in [0, 10]; a tick ending in `FAILED`
carries exactly 10 failures and one ending in `IDLE` (after a successful
export) carries 0; a tick only ends in those two states; every backoff sleep
inside the tick is `min(1 * 2^(k-1), 300)` seconds for the failure count `k`
current at that sleep; on failure the handler retries inline and, if the
retry fails, repeats (further backoff and inline retries) until success or
until the count reaches 10; and a latched `FAILED` state is reset to `IDLE`
with zero failures only at the start of the next scheduled tick, which then
behaves exactly like a tick entered in `IDLE` with zero failures. -/
theorem otlp_tick_invariants (oracle : Nat → Bool) (i cf : Nat) (s : ExportState)
    (hf : s = ExportState.FAILED → cf = 10)
    (hnf : s ≠ ExportState.FAILED → cf ≤ 9) :
    (otlp_tick oracle i cf s).1 ≤ 10
    ∧ ((otlp_tick oracle i cf s).2.1 = ExportState.FAILED →
        (otlp_tick oracle i cf s).1 = 10)
    ∧ ((otlp_tick oracle i cf s).2.1 = ExportState.IDLE →
        (otlp_tick oracle i cf s).1 = 0)
    ∧ ((otlp_tick oracle i cf s).2.1 = ExportState.FAILED
        ∨ (otlp_tick oracle i cf s).2.1 = ExportState.IDLE)
    ∧ (∀ d ∈ (otlp_tick oracle i cf s).2.2.1,
        ∃ k, 1 ≤ k ∧ k ≤ 9 ∧ d = min (2 ^ (k - 1)) 300)
    ∧ (s = ExportState.FAILED →
        otlp_tick oracle i cf s = otlp_tick oracle i 0 ExportState.IDLE) := by
  by_cases hs : s = ExportState.FAILED
  · subst hs
    by_cases ho : oracle i
    · simp [otlp_tick, ho]
    · simp [otlp_tick, ho]
      exact handle_failure_spec oracle 0 (i + 1) (by omega)
  · have hcf : cf ≤ 9 := hnf hs
    by_cases ho : oracle i
    · simp [otlp_tick, ho, hs]
    · simp [otlp_tick, ho, hs]
      have := handle_failure_spec oracle cf (i + 1) hcf
      exact ⟨this.1, this.2.1, this.2.2.1, this.2.2.2.1, this.2.2.2.2⟩

/-- Witness for `otlp_tick_invariants` at the always-failing oracle starting
from a clean IDLE state. -/
theorem otlp_tick_invariants_witness :
    (otlp_tick allFailOracle 0 0 ExportState.IDLE).1 ≤ 10
    ∧ ((otlp_tick allFailOracle 0 0 ExportState.IDLE).2.1 = ExportState.FAILED →
        (otlp_tick allFailOracle 0 0 ExportState.IDLE).1 = 10)
    ∧ ((otlp_tick allFailOracle 0 0 ExportState.IDLE).2.1 = ExportState.IDLE →
        (otlp_tick allFailOracle 0 0 ExportState.IDLE).1 = 0)
    ∧ ((otlp_tick allFailOracle 0 0 ExportState.IDLE).2.1 = ExportState.FAILED
        ∨ (otlp_tick allFailOracle 0 0 ExportState.IDLE).2.1 = ExportState.IDLE)
    ∧ (∀ d ∈ (otlp_tick allFailOracle 0 0 ExportState.IDLE).2.2.1,
        ∃ k, 1 ≤ k ∧ k ≤ 9 ∧ d = min (2 ^ (k - 1)) 300)
    ∧ (ExportState.IDLE = ExportState.FAILED →
        otlp_tick allFailOracle 0 0 ExportState.IDLE
          = otlp_tick allFailOracle 0 0 ExportState.IDLE) :=
  otlp_tick_invariants allFailOracle 0 0 ExportState.IDLE (by decide) (by decide)

/-! ### C6 — VALUE batch decoding -/

theorem hexDigit_isHex (n : Nat) (h : n < 16) : isHexChar (hexDigit n) = true := by
  interval_cases n <;> decide

theorem byteHex_isHex (b : Nat) : ∀ ch ∈ byteHex b, isHexChar ch = true := by
  intro ch hch
  simp [byteHex] at hch
  rcases hch with h | h <;> subst h
  · exact hexDigit_isHex _ (Nat.mod_lt _ (by omega))
  · exact hexDigit_isHex _ (Nat.mod_lt _ (by omega))

theorem bytesHex_isHex (bs : List Nat) : ∀ ch ∈ bytesHex bs, isHexChar ch = true := by
  induction bs with
  | nil => intro ch hch; simp [bytesHex] at hch
  | cons b rest ih =>
    intro ch hch
    simp [bytesHex] at hch ih ⊢
    rcases hch with h | h
    · exact byteHex_isHex b ch h
    · exact ih ch h

theorem bytesHex_length (bs : List Nat) : (bytesHex bs).length = 2 * bs.length := by
  induction bs with
  | nil => rfl
  | cons b rest ih => simp [bytesHex, byteHex] at ih ⊢; omega

/-- Shape of the canonical UUID string produced from any 16-byte group: five
dash-separated groups of 8, 4, 4, 4 and 12 lowercase hex digits. -/
theorem uuid_format (b : List Nat) :
    ∃ g1 g2 g3 g4 g5 : List Char,
      (_uuid_from_bytes_le b).data
        = g1 ++ '-' :: (g2 ++ '-' :: (g3 ++ '-' :: (g4 ++ '-' :: g5)))
      ∧ g1.length = 8 ∧ g2.length = 4 ∧ g3.length = 4 ∧ g4.length = 4
      ∧ g5.length = 12
      ∧ (∀ ch ∈ g1 ++ g2 ++ g3 ++ g4 ++ g5, isHexChar ch = true) := by
  refine ⟨bytesHex [b.getD 3 0, b.getD 2 0, b.getD 1 0, b.getD 0 0],
    bytesHex [b.getD 5 0, b.getD 4 0],
    bytesHex [b.getD 7 0, b.getD 6 0],
    bytesHex [b.getD 8 0, b.getD 9 0],
    bytesHex [b.getD 10 0, b.getD 11 0, b.getD 12 0, b.getD 13 0, b.getD 14 0, b.getD 15 0],
    rfl, by simp [bytesHex_length], by simp [bytesHex_length], by simp [bytesHex_length],
    by simp [bytesHex_length], by simp [bytesHex_length], ?_⟩
  intro ch hch
  simp at hch
  rcases hch with h | h | h | h | h <;> exact bytesHex_isHex _ ch h

/-- Claim C6: decoding a VALUE payload of n bytes yields exactly floor(n/24)
pairs, in payload order, the i-th pair being the canonical UUID of bytes
[24i, 24i+16) and the little-endian 64-bit double pattern of bytes
[24i+16, 24i+24); trailing bytes short of a full record are silently
dropped (they contribute no pair), and every produced identifier has the
canonical lowercase 8-4-4-4-12 shape. -/
theorem value_states_decode_characterization (payload : List Nat) :
    (parse_value_states payload).length = payload.length / 24
    ∧ parse_value_states payload
      = (List.range (payload.length / 24)).map (fun i =>
          (_uuid_from_bytes_le ((payload.drop (24 * i)).take 16),
           leNat (((payload.drop (24 * i)).drop 16).take 8)))
    ∧ (∀ p ∈ parse_value_states payload,
        ∃ g1 g2 g3 g4 g5 : List Char,
          (p.1 : String).data
            = g1 ++ '-' :: (g2 ++ '-' :: (g3 ++ '-' :: (g4 ++ '-' :: g5)))
          ∧ g1.length = 8 ∧ g2.length = 4 ∧ g3.length = 4 ∧ g4.length = 4
          ∧ g5.length = 12
          ∧ (∀ ch ∈ g1 ++ g2 ++ g3 ++ g4 ++ g5, isHexChar ch = true)) := by
  have hchar : parse_value_states payload
      = (List.range (payload.length / 24)).map (fun i =>
          (_uuid_from_bytes_le ((payload.drop (24 * i)).take 16),
           leNat (((payload.drop (24 * i)).drop 16).take 8))) := by
    suffices H : ∀ n payload, List.length payload ≤ n →
        parse_value_states payload
          = (List.range (payload.length / 24)).map (fun i =>
              (_uuid_from_bytes_le ((payload.drop (24 * i)).take 16),
               leNat (((payload.drop (24 * i)).drop 16).take 8))) by
      exact H payload.length payload le_rfl
    intro n
    induction n with
    | zero =>
      intro payload hlen
      have h0 : payload.length = 0 := by omega
      rw [parse_value_states]
      simp [h0, Nat.div_eq_of_lt]
    | succ m ih =>
      intro payload hlen
      by_cases h : 24 ≤ payload.length
      · rw [parse_value_states]
        simp only [h, dif_pos]
        have hrec := ih (payload.drop 24) (by simp; omega)
        rw [hrec]
        have hdiv : payload.length / 24 = (payload.length - 24) / 24 + 1 := by
          rw [Nat.div_eq_sub_div (by omega) h]
        rw [hdiv, List.range_succ_eq_map]
        simp only [List.map_cons, List.map_map]
        have hlen24 : (payload.drop 24).length = payload.length - 24 := by simp
        rw [hlen24]
        congr 1
        apply List.map_congr_left
        intro i hi
        simp only [Function.comp, Nat.succ_eq_add_one, List.drop_drop]
        ring_nf
      · rw [parse_value_states]
        simp only [h, dif_neg, not_false_iff]
        have : payload.length / 24 = 0 := Nat.div_eq_of_lt (by omega)
        simp [this]
  refine ⟨by rw [hchar]; simp, hchar, ?_⟩
  intro p hp
  rw [hchar] at hp
  simp at hp
  obtain ⟨i, _, hpeq⟩ := hp
  rw [← hpeq]
  exact uuid_format _

/-! ### C5 — TEXT batch decoding -/

theorem leNat_le32enc (n : Nat) (h : n < 4294967296) : leNat (le32enc n) = n := by
  simp [le32enc, leNat]
  omega

theorem encodeTextRec_length (r : TextRec) (hsid : r.sid.length = 16)
    (hicon : r.icon.length = 16) :
    (encodeTextRec r).length = 36 + r.text.length + pad4 r.text.length := by
  simp [encodeTextRec, le32enc, hsid, hicon]
  omega

/-- Layout lemma: parsing a concatenation of well-formed encoded TEXT
records followed by arbitrary remaining bytes yields one pair per record
(canonical UUID of the state id, text bytes with all trailing NULs stripped
and decoded as UTF-8 with replacement) followed by the parse of the
remainder. -/
theorem parse_text_front (rs : List TextRec) (tail : List Nat)
    (hwf : ∀ r ∈ rs, TextRecWF r) :
    parse_text_states (encodeTextRecs rs ++ tail)
      = rs.map (fun r => (_uuid_from_bytes_le r.sid, pyDecode (rstripNul r.text)))
        ++ parse_text_states tail := by
  induction rs with
  | nil => simp [encodeTextRecs]
  | cons r rs' ih =>
    obtain ⟨hsid, hicon, hlen⟩ := hwf r (by simp)
    have hihwf : ∀ r' ∈ rs', TextRecWF r' := fun r' hr' => hwf r' (by simp [hr'])
    have hih := ih hihwf
    have henc : encodeTextRecs (r :: rs') ++ tail
        = encodeTextRec r ++ (encodeTextRecs rs' ++ tail) := by
      simp [encodeTextRecs]
    rw [henc]
    set rest := encodeTextRecs rs' ++ tail with hrest
    set L := r.text.length with hL
    have hrl : (encodeTextRec r).length = 36 + L + pad4 L :=
      encodeTextRec_length r hsid hicon
    have htotal : (encodeTextRec r ++ rest).length = 36 + L + pad4 L + rest.length := by
      simp [hrl]
    rw [parse_text_states]
    have hc1 : 36 ≤ (encodeTextRec r ++ rest).length := by omega
    simp only [hc1, dif_pos]
    have htake16 : (encodeTextRec r ++ rest).take 16 = r.sid := by
      have : encodeTextRec r ++ rest = r.sid ++ (r.icon ++ le32enc L ++ r.text
          ++ List.replicate (pad4 L) 0 ++ rest) := by
        simp [encodeTextRec]
      rw [this]
      rw [show (16 : Nat) = r.sid.length from hsid.symm]
      exact List.take_left r.sid _
    have hdrop32 : (encodeTextRec r ++ rest).drop 32
        = le32enc L ++ (r.text ++ List.replicate (pad4 L) 0 ++ rest) := by
      have : encodeTextRec r ++ rest = (r.sid ++ r.icon) ++ (le32enc L
          ++ (r.text ++ List.replicate (pad4 L) 0 ++ rest)) := by
        simp [encodeTextRec]
      rw [this]
      rw [show (32 : Nat) = (r.sid ++ r.icon).length by simp [hsid, hicon]]
      exact List.drop_left _ _
    have htlen : leNat (((encodeTextRec r ++ rest).drop 32).take 4) = L := by
      rw [hdrop32]
      rw [show (4 : Nat) = (le32enc L).length by simp [le32enc]]
      rw [List.take_left]
      exact leNat_le32enc L hlen
    rw [htlen]
    have hc2 : 36 + L ≤ (encodeTextRec r ++ rest).length := by omega
    simp only [hc2, if_pos]
    have hdrop36 : (encodeTextRec r ++ rest).drop 36
        = r.text ++ (List.replicate (pad4 L) 0 ++ rest) := by
      have : encodeTextRec r ++ rest = (r.sid ++ r.icon ++ le32enc L)
          ++ (r.text ++ (List.replicate (pad4 L) 0 ++ rest)) := by
        simp [encodeTextRec]
      rw [this]
      rw [show (36 : Nat) = (r.sid ++ r.icon ++ le32enc L).length by
        simp [hsid, hicon, le32enc]]
      exact List.drop_left _ _
    have htakeL : ((encodeTextRec r ++ rest).drop 36).take L = r.text := by
      rw [hdrop36]
      rw [show L = r.text.length from hL]
      exact List.take_left r.text _
    have hdropAll : (encodeTextRec r ++ rest).drop (36 + (L + (4 - L % 4) % 4))
        = rest := by
      rw [show (36 + (L + (4 - L % 4) % 4)) = (encodeTextRec r).length by
        rw [hrl]; simp [pad4]; ring]
      exact List.drop_left _ _
    rw [htake16, htakeL, hdropAll, hih]
    simp

/-- A payload that is too short for a record header, or whose first record
declares a text length running past the end, parses to no records at all. -/
theorem parse_text_states_stop (tail : List Nat)
    (h : tail.length < 36
      ∨ (36 ≤ tail.length ∧ tail.length < 36 + leNat ((tail.drop 32).take 4))) :
    parse_text_states tail = [] := by
  rw [parse_text_states]
  rcases h with h | ⟨h1, h2⟩
  · simp [show ¬ (36 ≤ tail.length) by omega]
  · simp only [h1, dif_pos]
    simp [show ¬ (36 + leNat ((tail.drop 32).take 4) ≤ tail.length) by omega]

/-- Claim C5 counterexample: one record with declared length 3 carrying the
bytes "a\x00\x00".  The parser strips **all** trailing NULs (`rstrip`), so
the decoded text is "a"; the claim's "exactly one trailing NUL stripped"
demands "a\x00". -/
theorem text_states_nul_strip_counterexample :
    parse_text_states exTextPayload
      = [("00000000-0000-0000-0000-000000000000", "a")]
    ∧ ("a" : String) ≠ "a\x00" := by
  constructor
  · have hpay : exTextPayload
        = encodeTextRecs [⟨List.replicate 16 0, List.replicate 16 0, [97, 0, 0]⟩] ++ [] := by
      decide
    rw [hpay, parse_text_front _ _ (by
      intro r hr
      simp only [List.mem_singleton] at hr
      subst hr
      exact ⟨by decide, by decide, by decide⟩)]
    rw [show parse_text_states [] = [] by rw [parse_text_states]; simp]
    simp only [List.map_cons, List.map_nil, List.append_nil]
    norm_num [pyDecode, rstripNul, utf8DecodeReplace]
    decide
  · decide

/-- Claim C5 (amended): decoding a TEXT batch laid out as 16-byte state id,
16-byte icon id (ignored), 4-byte little-endian text length, the text and
zero padding to a 4-byte boundary yields one pair per record, the text
decoded as UTF-8 with replacement of invalid sequences after **all**
trailing NULs are stripped; a record whose declared text length would run
past the end of the payload stops the parse there, and all earlier records
are still returned. -/
theorem text_states_decode_amended (rs : List TextRec) (tail : List Nat)
    (hwf : ∀ r ∈ rs, TextRecWF r)
    (htail : tail.length < 36
      ∨ (36 ≤ tail.length ∧ tail.length < 36 + leNat ((tail.drop 32).take 4))) :
    parse_text_states (encodeTextRecs rs ++ tail)
      = rs.map (fun r => (_uuid_from_bytes_le r.sid, pyDecode (rstripNul r.text))) := by
  rw [parse_text_front rs tail hwf, parse_text_states_stop tail htail]
  simp

/-- Witness for `text_states_decode_amended`: one record carrying "hi"
followed by a truncated record declaring 200 text bytes that are absent. -/
theorem text_states_decode_amended_witness :
    parse_text_states (encodeTextRecs [exTextRec] ++ exBadTextTail)
      = [exTextRec].map (fun r => (_uuid_from_bytes_le r.sid, pyDecode (rstripNul r.text))) :=
  text_states_decode_amended [exTextRec] exBadTextTail
    (by intro r hr
        simp only [List.mem_singleton] at hr
        subst hr
        exact ⟨by decide, by decide, by decide⟩)
    (by decide)

/-! ### C10 — frame effect of TEXT batch application -/

theorem mapVals_mapVals {α : Type} (f g : String → α → α) (l : List (String × α)) :
    mapVals f (mapVals g l) = mapVals (fun k a => f k (g k a)) l := by
  induction l with
  | nil => rfl
  | cons p r ih =>
    simp [mapVals] at ih ⊢
    try exact ih

theorem mapVals_congr {α : Type} (f g : String → α → α) (l : List (String × α))
    (h : ∀ k a, f k a = g k a) : mapVals f l = mapVals g l := by
  induction l with
  | nil => rfl
  | cons p r ih =>
    simp [mapVals, h] at ih ⊢
    try exact ih

/-- Applying one TEXT record leaves everything except top-level text fields
unchanged. -/
theorem eraseTop_applyTextEntry (st : MiniserverState) (id t : String) :
    eraseTopText (applyTextEntry st id t) = eraseTopText st := by
  rcases href : lookupA st.state_map id with _ | ref
  · simp [applyTextEntry, href]
  · rcases hc : lookupA st.controls ref.control_uuid with _ | c
    · simp [applyTextEntry, href, hc]
    · by_cases hmem : memStates c.states ref.state_name
      · simp only [applyTextEntry, href, hc, hmem, if_pos]
        unfold eraseTopText
        congr 1
        rw [mapVals_mapVals]
        apply mapVals_congr
        intro k c'
        by_cases hk : k = ref.control_uuid
        · simp only [hk, if_pos]
          congr 1
          unfold updStatesText
          rw [mapVals_mapVals]
          apply mapVals_congr
          intro k' e
          by_cases hk' : k' = ref.state_name
          · simp [hk']
          · simp [hk']
        · simp [hk]
      · simp [applyTextEntry, href, hc, hmem]

theorem eraseTop_applyTextEntries (st : MiniserverState) (es : List (String × String)) :
    eraseTopText (applyTextEntries st es) = eraseTopText st := by
  induction es generalizing st with
  | nil => rfl
  | cons e rest ih =>
    show eraseTopText (applyTextEntries (applyTextEntry st e.1 e.2) rest) = eraseTopText st
    rw [ih, eraseTop_applyTextEntry]

/-- A TEXT record whose state id is unknown, or resolves to a control that
is not a top-level control carrying the state name (for example a
sub-control), changes nothing at all. -/
theorem applyTextEntry_skip (st : MiniserverState) (id t : String)
    (h : textResolves st id = false) : applyTextEntry st id t = st := by
  unfold textResolves at h
  rcases href : lookupA st.state_map id with _ | ref
  · simp [applyTextEntry, href]
  · rw [href] at h
    simp only [] at h
    rcases hc : lookupA st.controls ref.control_uuid with _ | c
    · simp [applyTextEntry, href, hc]
    · rw [hc] at h
      simp only [] at h
      simp [applyTextEntry, href, hc, h]

/-- Applying one TEXT record does not change the text stored at any
top-level location other than the one its state id resolves to. -/
theorem readTextTop_applyTextEntry_frame (st : MiniserverState) (id t cu sn : String)
    (h : ∀ ref, lookupA st.state_map id = some ref →
      ¬(ref.control_uuid = cu ∧ ref.state_name = sn)) :
    readTextTop (applyTextEntry st id t) cu sn = readTextTop st cu sn := by
  rcases href : lookupA st.state_map id with _ | ref
  · simp [applyTextEntry, href]
  · rcases hc : lookupA st.controls ref.control_uuid with _ | c
    · simp [applyTextEntry, href, hc]
    · by_cases hmem : memStates c.states ref.state_name
      · simp only [applyTextEntry, href, hc, hmem, if_pos]
        have hne := h ref href
        unfold readTextTop
        simp only [lookupA_mapVals]
        rcases hcu : lookupA st.controls cu with _ | c2
        · rfl
        · simp only [Option.map_some', Option.some_bind]
          by_cases hk : cu = ref.control_uuid
          · have hsn : ¬ (sn = ref.state_name) := by
              intro hsnc
              exact hne ⟨hk.symm, hsnc.symm⟩
            simp only [hk, if_pos]
            unfold updStatesText
            simp only [lookupA_mapVals]
            cases lookupA c2.states sn with
            | none => rfl
            | some e => simp [hsn]
          · simp [hk]
      · simp [applyTextEntry, href, hc, hmem]

/-- Claim C10: applying a decoded TEXT batch mutates at most the text fields
of top-level state entries — numeric values, `last_update_ts`, `connected`,
the reverse index, room and category maps and all sub-controls are untouched
(all of these are fields preserved by `eraseTopText`, so the first conjunct
covers them); a record whose state id is unknown or resolves outside the
top-level controls is silently skipped; and a record changes no top-level
text other than the one its state id resolves to. -/
theorem text_batch_frame_effect (st : MiniserverState) (es : List (String × String)) :
    eraseTopText (applyTextEntries st es) = eraseTopText st
    ∧ (∀ id t, textResolves st id = false → applyTextEntry st id t = st)
    ∧ (∀ id t cu sn,
        (∀ ref, lookupA st.state_map id = some ref →
          ¬(ref.control_uuid = cu ∧ ref.state_name = sn)) →
        readTextTop (applyTextEntry st id t) cu sn = readTextTop st cu sn) :=
  ⟨eraseTop_applyTextEntries st es,
   fun id t h => applyTextEntry_skip st id t h,
   fun id t cu sn h => readTextTop_applyTextEntry_frame st id t cu sn h⟩

/-- Witness for `text_batch_frame_effect` on the one-control mirror: one
resolving record, one unknown-id record, and one frame read at a different
state name. -/
theorem text_batch_frame_effect_witness :
    eraseTopText (applyTextEntries exState [("s1", "hi")]) = eraseTopText exState
    ∧ applyTextEntry exState "zz" "hi" = exState
    ∧ readTextTop (applyTextEntry exState "s1" "hi") "c1" "other"
        = readTextTop exState "c1" "other" := by
  have h := text_batch_frame_effect exState [("s1", "hi")]
  refine ⟨h.1, h.2.1 "zz" "hi" (by decide), h.2.2 "s1" "hi" "c1" "other" ?_⟩
  intro ref hr
  injection hr with h2
  subst h2
  decide

/-! ### C9 — determinism of the /metrics projection -/

/-- The scrape-duration family of the collected stream carries exactly the
monotonic-clock reading of this projection. -/
theorem collect_duration_sample (states : List MiniserverState) (cfg : ExporterConfig)
    (d : Nat) :
    famValue (collect states cfg d) "loxone_exporter_scrape_duration_seconds" = some d := by
  by_cases h : cfg.include_text_values <;>
    simp [collect, famValue, famName, List.find?, h]

/-- Claim C9 counterexample: two scrapes of the same frozen mirror under the
same configuration whose projections run for different wall-clock durations
both answer HTTP 200 but produce different family streams (the
`loxone_exporter_scrape_duration_seconds` sample differs), so the bodies are
not byte-identical and the projector is not a function of mirror and
configuration alone. -/
theorem metrics_duration_counterexample :
    (_metrics_handler [] {} 0).1 = 200
    ∧ (_metrics_handler [] {} 4607182418800017408).1 = 200
    ∧ collect [] ({} : ExporterConfig) 0
        ≠ collect [] ({} : ExporterConfig) 4607182418800017408 := by
  refine ⟨rfl, rfl, ?_⟩
  intro heq
  have h1 := collect_duration_sample [] {} 0
  have h2 := collect_duration_sample [] {} 4607182418800017408
  rw [heq] at h1
  rw [h1] at h2
  simp at h2

/-- Claim C9 (amended): every scrape of the success path answers HTTP 200,
and for a frozen mirror the projected family stream is a deterministic
function of the mirror snapshots and the configuration **except** for the
`loxone_exporter_scrape_duration_seconds` family, whose sample is the
wall-clock duration of the projection itself; all other families are
byte-identical across invocations. -/
theorem collect_deterministic_amended (states : List MiniserverState)
    (cfg : ExporterConfig) (d1 d2 : Nat) :
    (_metrics_handler states cfg d1).1 = 200
    ∧ (collect states cfg d1).filter
        (fun f => famName f != "loxone_exporter_scrape_duration_seconds")
      = (collect states cfg d2).filter
        (fun f => famName f != "loxone_exporter_scrape_duration_seconds") := by
  refine ⟨rfl, ?_⟩
  by_cases h : cfg.include_text_values <;>
    simp [collect, famName, List.filter, h]

/-! ### C8 — dead-connection detection in the receive loop -/

theorem parse_value_states_exValueMsg : parse_value_states (exValueMsg.drop 8)
    = [("00000000-0000-0000-0000-000000000000", 4607182418800017408)] := by
  have h : exValueMsg.drop 8
      = List.replicate 16 0 ++ [0, 0, 0, 0, 0, 0, 240, 63] := by decide
  rw [h]
  rw [parse_value_states]
  norm_num
  constructor
  · constructor
    · decide
    · decide
  · rw [parse_value_states]
    norm_num

/-- Claim C8 (code_bug evidence): a VALUE frame arriving 1000 seconds after
the previously recorded receive time — far beyond the 60-second
dead-connection limit the claim (and the unused `_keepalive_timeout = 60.0`
attribute of `LoxoneClient.__init__`) describes — is processed normally by
the receive loop: the loop neither aborts before it nor after it, applies
the update, advances `last_update_ts`, and records the new arrival time.
The loop of `LoxoneClient.run` has no read deadline and never compares
`_last_recv_time` against `_keepalive_timeout`; only the end of the
connection or an OUT_OF_SERVICE frame ends it. -/
theorem receive_loop_no_timeout_abort :
    60 < 1000 - 0
    ∧ receive_loop exStateZero 0 [(1000, exValueMsg)]
        = ({ exStateZero with
              controls := [("c1", { exControl with
                states := [("active",
                  { exEntry with value := some 4607182418800017408 })] })],
              last_update_ts := 1000 }, 1000) := by
  refine ⟨by norm_num, ?_⟩
  simp only [receive_loop, _process_message]
  norm_num [parse_value_states_exValueMsg]
  rfl

/-! ### C1: VALUE batch application (write/read commutation on the mirror) -/

theorem lookupA_updStatesVal (s : List (String × StateEntry)) (n : String) (v : Nat)
    (m : String) :
    lookupA (updStatesVal s n v) m
      = if m = n then (lookupA s m).map (setValue v) else lookupA s m := by
  unfold updStatesVal
  rw [lookupA_mapVals]
  by_cases h : m = n
  · simp [h]
  · cases lookupA s m <;> simp [h]

theorem memStates_updStatesVal (s : List (String × StateEntry)) (n : String) (v : Nat)
    (m : String) : memStates (updStatesVal s n v) m = memStates s m := by
  unfold memStates
  rw [lookupA_updStatesVal]
  by_cases h : m = n
  · simp [h]
  · simp [h]

theorem applyValueEntry_state_map (st : MiniserverState) (id : String) (v : Nat) :
    (applyValueEntry st id v).state_map = st.state_map := by
  cases href : lookupA st.state_map id with
  | none => simp [applyValueEntry, href]
  | some ref =>
    cases hc : lookupA st.controls ref.control_uuid with
    | none => simp [applyValueEntry, href, hc]
    | some c =>
      by_cases h : memStates c.states ref.state_name <;>
        simp [applyValueEntry, href, hc, h]

theorem applyValueEntry_ts (st : MiniserverState) (id : String) (v : Nat) :
    (applyValueEntry st id v).last_update_ts = st.last_update_ts := by
  cases href : lookupA st.state_map id with
  | none => simp [applyValueEntry, href]
  | some ref =>
    cases hc : lookupA st.controls ref.control_uuid with
    | none => simp [applyValueEntry, href, hc]
    | some c =>
      by_cases h : memStates c.states ref.state_name <;>
        simp [applyValueEntry, href, hc, h]

theorem subMatch_updStates (cu sn sn' : String) (v : Nat) (sc : Control) :
    subMatch cu sn { sc with states := updStatesVal sc.states sn' v } = subMatch cu sn sc := by
  unfold subMatch
  rw [memStates_updStatesVal]

theorem readSubList_updFirstSub_same (subs : List Control) (cu sn : String) (v : Nat) :
    readSubList (updFirstSub subs cu sn v) cu sn
      = (readSubList subs cu sn).map (fun _ => some v) := by
  induction subs with
  | nil => simp [readSubList, updFirstSub]
  | cons sc rest ih =>
    by_cases hm : subMatch cu sn sc
    · have hm2 : subMatch cu sn { sc with states := updStatesVal sc.states sn v } = true := by
        rw [subMatch_updStates]; exact hm
      simp only [updFirstSub, hm, if_pos]
      unfold readSubList
      rw [List.find?_cons_of_pos _ hm2, List.find?_cons_of_pos _ hm]
      have hmem : memStates sc.states sn = true := by
        unfold subMatch at hm
        exact (Bool.and_eq_true _ _ |>.mp hm).2
      unfold memStates at hmem
      obtain ⟨e, he⟩ := Option.isSome_iff_exists.mp hmem
      simp only [Option.some_bind]
      rw [lookupA_updStatesVal]
      simp [he, setValue]
    · have hm2 : subMatch cu sn { sc with states := updStatesVal sc.states sn v } = false := by
        rw [subMatch_updStates]; exact Bool.eq_false_iff.mpr hm
      simp only [updFirstSub, hm, if_neg, Bool.not_eq_true]
      unfold readSubList at ih ⊢
      rw [List.find?_cons_of_neg _ (by simp [Bool.eq_false_iff.mpr hm]),
        List.find?_cons_of_neg _ (by simp [Bool.eq_false_iff.mpr hm])]
      exact ih

theorem readSubList_updFirstSub_ne (subs : List Control) (cu sn cu' sn' : String) (v : Nat)
    (hne : ¬(cu = cu' ∧ sn = sn')) :
    readSubList (updFirstSub subs cu' sn' v) cu sn = readSubList subs cu sn := by
  induction subs with
  | nil => simp [readSubList, updFirstSub]
  | cons sc rest ih =>
    by_cases hm' : subMatch cu' sn' sc
    · simp only [updFirstSub, hm', if_pos]
      unfold readSubList
      by_cases hm : subMatch cu sn sc
      · have hm2 : subMatch cu sn { sc with states := updStatesVal sc.states sn' v } = true := by
          rw [subMatch_updStates]; exact hm
        rw [List.find?_cons_of_pos _ hm2, List.find?_cons_of_pos _ hm]
        have hsn : ¬ (sn = sn') := by
          intro hsneq
          apply hne
          refine ⟨?_, hsneq⟩
          unfold subMatch at hm hm'
          have h1 := (Bool.and_eq_true _ _ |>.mp hm).1
          have h2 := (Bool.and_eq_true _ _ |>.mp hm').1
          simp only [beq_iff_eq] at h1 h2
          exact h1.symm.trans h2
        simp only [Option.some_bind]
        rw [lookupA_updStatesVal]
        simp [hsn]
      · have hm2 : subMatch cu sn { sc with states := updStatesVal sc.states sn' v } = false := by
          rw [subMatch_updStates]; exact Bool.eq_false_iff.mpr hm
        rw [List.find?_cons_of_neg _ (by simp [hm2]),
          List.find?_cons_of_neg _ (by simp [Bool.eq_false_iff.mpr hm])]
    · simp only [updFirstSub, hm', if_neg, Bool.not_eq_true]
      unfold readSubList at ih ⊢
      by_cases hm : subMatch cu sn sc
      · rw [List.find?_cons_of_pos _ hm, List.find?_cons_of_pos _ hm]
      · rw [List.find?_cons_of_neg _ (by simp [Bool.eq_false_iff.mpr hm]),
          List.find?_cons_of_neg _ (by simp [Bool.eq_false_iff.mpr hm])]
        exact ih

theorem readSubs_updateSubs_same (cs : List (String × Control)) (cu sn : String) (v : Nat) :
    readSubs (updateSubs cs cu sn v) cu sn = (readSubs cs cu sn).map (fun _ => some v) := by
  induction cs with
  | nil => simp [readSubs, updateSubs, mapVals]
  | cons p rest ih =>
    unfold updateSubs mapVals
    simp only [List.map_cons]
    unfold readSubs
    rw [readSubList_updFirstSub_same]
    cases h : readSubList p.2.sub_controls cu sn with
    | none =>
      simp only [Option.map_none']
      exact ih
    | some r => simp

theorem readSubs_updateSubs_ne (cs : List (String × Control)) (cu sn cu' sn' : String)
    (v : Nat) (hne : ¬(cu = cu' ∧ sn = sn')) :
    readSubs (updateSubs cs cu' sn' v) cu sn = readSubs cs cu sn := by
  induction cs with
  | nil => simp [readSubs, updateSubs, mapVals]
  | cons p rest ih =>
    unfold updateSubs mapVals
    simp only [List.map_cons]
    unfold readSubs
    rw [readSubList_updFirstSub_ne _ _ _ _ _ _ hne]
    cases h : readSubList p.2.sub_controls cu sn with
    | none => exact ih
    | some r => simp

theorem readSubs_mapVals_subEq (cs : List (String × Control)) (cu sn : String)
    (f : String → Control → Control)
    (hf : ∀ k c, (f k c).sub_controls = c.sub_controls) :
    readSubs (mapVals f cs) cu sn = readSubs cs cu sn := by
  induction cs with
  | nil => simp [readSubs, mapVals]
  | cons p rest ih =>
    unfold mapVals
    simp only [List.map_cons]
    unfold readSubs
    rw [hf]
    cases h : readSubList p.2.sub_controls cu sn with
    | none => exact ih
    | some r => simp

theorem lookupA_updateTop (cs : List (String × Control)) (cu sn : String) (v : Nat)
    (k : String) :
    lookupA (updateTop cs cu sn v) k
      = if k = cu then (lookupA cs k).map (fun c => updCtrlTop c sn v) else lookupA cs k := by
  unfold updateTop
  rw [lookupA_mapVals]
  by_cases h : k = cu
  · simp [h]
  · cases lookupA cs k <;> simp [h]

theorem lookupA_updateSubs (cs : List (String × Control)) (cu sn : String) (v : Nat)
    (k : String) :
    lookupA (updateSubs cs cu sn v) k
      = (lookupA cs k).map
          (fun c => { c with sub_controls := updFirstSub c.sub_controls cu sn v }) := by
  unfold updateSubs
  rw [lookupA_mapVals]

theorem applyValueEntry_unres (st : MiniserverState) (id : String) (v : Nat)
    (h : lookupA st.state_map id = none) : applyValueEntry st id v = st := by
  simp [applyValueEntry, h]

theorem resolve_isSome_ref (st : MiniserverState) (id : String)
    (h : (resolveValue st id).isSome = true) :
    ∃ r, lookupA st.state_map id = some r := by
  cases hr : lookupA st.state_map id with
  | none =>
    unfold resolveValue at h
    rw [hr] at h
    simp at h
  | some r => exact ⟨r, rfl⟩

theorem resolveValue_readNone (st : MiniserverState) (id : String)
    (h : lookupA st.state_map id = none) : resolveValue st id = none := by
  unfold resolveValue
  rw [h]

theorem resolveValue_write_refEq (st : MiniserverState) (id id' : String) (v : Nat)
    (r : StateRef) (h1 : lookupA st.state_map id = some r)
    (h2 : lookupA st.state_map id' = some r) :
    resolveValue (applyValueEntry st id' v) id
      = (resolveValue st id).map (fun _ => some v) := by
  cases hc : lookupA st.controls r.control_uuid with
  | none =>
    simp only [applyValueEntry, h2, hc, resolveValue, h1]
    rw [lookupA_updateSubs, hc]
    simp only [Option.map_none']
    rw [readSubs_updateSubs_same]
  | some c =>
    by_cases hmem : memStates c.states r.state_name
    · simp only [applyValueEntry, h2, hc, hmem, if_pos, resolveValue, h1]
      rw [lookupA_updateTop]
      rw [hc]
      simp only [eq_self_iff_true, if_true, Option.map_some']
      have hms : memStates (updCtrlTop c r.state_name v).states r.state_name = true := by
        unfold updCtrlTop
        simp only []
        rw [memStates_updStatesVal]
        exact hmem
      simp only [hms, hmem, if_pos]
      unfold memStates at hmem
      obtain ⟨e, he⟩ := Option.isSome_iff_exists.mp hmem
      unfold updCtrlTop
      simp only []
      rw [lookupA_updStatesVal]
      simp [he, setValue]
    · simp only [applyValueEntry, h2, hc, hmem, if_neg, Bool.not_eq_true, resolveValue, h1]
      rw [lookupA_updateSubs, hc]
      simp only [Option.map_some']
      have hms : memStates c.states r.state_name = false := Bool.eq_false_iff.mpr hmem
      simp only [hms]
      rw [readSubs_updateSubs_same]
      simp [hms]

theorem resolveValue_write_refNe (st : MiniserverState) (id id' : String) (v : Nat)
    (r r' : StateRef) (h1 : lookupA st.state_map id = some r)
    (h2 : lookupA st.state_map id' = some r') (hne : r ≠ r') :
    resolveValue (applyValueEntry st id' v) id = resolveValue st id := by
  rcases r with ⟨cu, sn⟩
  rcases r' with ⟨cu', sn'⟩
  have hne' : ¬(cu = cu' ∧ sn = sn') := by
    intro ⟨ha, hb⟩
    exact hne (by rw [ha, hb])
  cases hc' : lookupA st.controls cu' with
  | some c' =>
    by_cases hmem' : memStates c'.states sn'
    · -- top-level write via updateTop
      simp only [applyValueEntry, h2, hc', hmem', if_pos, resolveValue, h1]
      rw [lookupA_updateTop]
      by_cases hcu : cu = cu'
      · have hsn : ¬(sn = sn') := fun hsneq => hne' ⟨hcu, hsneq⟩
        subst hcu
        rw [hc']
        simp only [eq_self_iff_true, if_true, if_pos, Option.map_some']
        have hms : memStates (updCtrlTop c' sn' v).states sn = memStates c'.states sn := by
          unfold updCtrlTop
          simp only []
          rw [memStates_updStatesVal]
        rw [hms]
        by_cases hmem : memStates c'.states sn
        · simp only [hmem, if_pos]
          unfold updCtrlTop
          simp only []
          rw [lookupA_updStatesVal]
          simp [hsn]
        · have hms2 : memStates c'.states sn = false := Bool.eq_false_iff.mpr hmem
          simp only [hms2]
          apply readSubs_mapVals_subEq
          intro k c
          by_cases hk : k = cu <;> simp [hk, updCtrlTop]
      · simp only [if_neg hcu]
        cases hcc : lookupA st.controls cu with
        | none =>
          apply readSubs_mapVals_subEq
          intro k c
          by_cases hk : k = cu' <;> simp [hk, updCtrlTop]
        | some c =>
          by_cases hmem : memStates c.states sn
          · simp [hmem]
          · simp only [Bool.eq_false_iff.mpr hmem]
            apply readSubs_mapVals_subEq
            intro k c
            by_cases hk : k = cu' <;> simp [hk, updCtrlTop]
    · -- sub-control write via updateSubs
      simp only [applyValueEntry, h2, hc', hmem', if_neg, Bool.not_eq_true, resolveValue, h1]
      rw [lookupA_updateSubs]
      cases hcc : lookupA st.controls cu with
      | none =>
        simp only [Option.map_none']
        exact readSubs_updateSubs_ne st.controls cu sn cu' sn' v hne'
      | some c =>
        simp only [Option.map_some']
        by_cases hmem : memStates c.states sn
        · simp [hmem]
        · simp only [Bool.eq_false_iff.mpr hmem]
          exact readSubs_updateSubs_ne st.controls cu sn cu' sn' v hne'
  | none =>
    simp only [applyValueEntry, h2, hc', resolveValue, h1]
    rw [lookupA_updateSubs]
    cases hcc : lookupA st.controls cu with
    | none =>
      simp only [Option.map_none']
      exact readSubs_updateSubs_ne st.controls cu sn cu' sn' v hne'
    | some c =>
      simp only [Option.map_some']
      by_cases hmem : memStates c.states sn
      · simp [hmem]
      · simp only [Bool.eq_false_iff.mpr hmem]
        exact readSubs_updateSubs_ne st.controls cu sn cu' sn' v hne'

theorem resolveValue_entries_frame (es : List (String × Nat)) (st : MiniserverState)
    (id : String)
    (h : ∀ p ∈ es, lookupA st.state_map p.1 ≠ lookupA st.state_map id) :
    resolveValue (applyValueEntries st es) id = resolveValue st id := by
  induction es generalizing st with
  | nil => rfl
  | cons p rest ih =>
    have hstep : resolveValue (applyValueEntry st p.1 p.2) id = resolveValue st id := by
      cases hid : lookupA st.state_map id with
      | none =>
        rw [resolveValue_readNone st id hid]
        apply resolveValue_readNone
        rw [applyValueEntry_state_map]
        exact hid
      | some r =>
        cases hp : lookupA st.state_map p.1 with
        | none => rw [applyValueEntry_unres st p.1 p.2 hp]
        | some r' =>
          have hrr : r ≠ r' := by
            intro heq
            apply h p (by simp)
            rw [hp, hid, heq]
          exact resolveValue_write_refNe st id p.1 p.2 r r' hid hp hrr
    have hsm := applyValueEntry_state_map st p.1 p.2
    have hh : ∀ q ∈ rest, lookupA (applyValueEntry st p.1 p.2).state_map q.1
        ≠ lookupA (applyValueEntry st p.1 p.2).state_map id := by
      intro q hq
      rw [hsm]
      exact h q (List.mem_cons_of_mem p hq)
    calc resolveValue (applyValueEntries st (p :: rest)) id
        = resolveValue (applyValueEntries (applyValueEntry st p.1 p.2) rest) id := rfl
      _ = resolveValue (applyValueEntry st p.1 p.2) id := ih _ hh
      _ = resolveValue st id := hstep

theorem applyValueEntries_last_write :
    ∀ (es : List (String × Nat)) (st : MiniserverState) (k : Nat) (id : String) (v : Nat),
      es.get? k = some (id, v) →
      (resolveValue st id).isSome = true →
      (∀ j id' v', k < j → es.get? j = some (id', v') →
          lookupA st.state_map id' ≠ lookupA st.state_map id) →
      resolveValue (applyValueEntries st es) id = some (some v) := by
  intro es
  induction es with
  | nil =>
    intro st k id v hget
    simp at hget
  | cons p rest ih =>
    intro st k id v hget hres hlast
    cases k with
    | zero =>
      have hp : p = (id, v) := by simpa using hget
      subst hp
      obtain ⟨r, hr⟩ := resolve_isSome_ref st id hres
      have hw : resolveValue (applyValueEntry st id v) id
          = (resolveValue st id).map (fun _ => some v) :=
        resolveValue_write_refEq st id id v r hr hr
      have hfr : resolveValue (applyValueEntries (applyValueEntry st id v) rest) id
          = resolveValue (applyValueEntry st id v) id := by
        apply resolveValue_entries_frame
        intro q hq
        rw [applyValueEntry_state_map]
        obtain ⟨n, hn⟩ := List.get?_of_mem hq
        exact hlast (n + 1) q.1 q.2 (Nat.succ_pos n) (by simpa using hn)
      calc resolveValue (applyValueEntries st ((id, v) :: rest)) id
          = resolveValue (applyValueEntries (applyValueEntry st id v) rest) id := rfl
        _ = resolveValue (applyValueEntry st id v) id := hfr
        _ = (resolveValue st id).map (fun _ => some v) := hw
        _ = some (some v) := by
            cases hrv : resolveValue st id with
            | none => rw [hrv] at hres; simp at hres
            | some w => simp
    | succ kk =>
      have hget2 : rest.get? kk = some (id, v) := by simpa using hget
      have hsm := applyValueEntry_state_map st p.1 p.2
      have hres1 : (resolveValue (applyValueEntry st p.1 p.2) id).isSome = true := by
        cases hp : lookupA st.state_map p.1 with
        | none => rw [applyValueEntry_unres st p.1 p.2 hp]; exact hres
        | some r' =>
          obtain ⟨r, hr⟩ := resolve_isSome_ref st id hres
          by_cases hrr : r = r'
          · subst hrr
            rw [resolveValue_write_refEq st id p.1 p.2 r hr hp]
            simpa using hres
          · rw [resolveValue_write_refNe st id p.1 p.2 r r' hr hp hrr]
            exact hres
      have hlast1 : ∀ j id' v', kk < j → rest.get? j = some (id', v') →
          lookupA (applyValueEntry st p.1 p.2).state_map id'
            ≠ lookupA (applyValueEntry st p.1 p.2).state_map id := by
        intro j id' v' hj hg
        rw [hsm]
        exact hlast (j + 1) id' v' (by omega) (by simpa using hg)
      exact ih (applyValueEntry st p.1 p.2) kk id v hget2 hres1 hlast1

theorem resolveValue_set_ts (st : MiniserverState) (now : Nat) (id : String) :
    resolveValue { st with last_update_ts := now } id = resolveValue st id := rfl

theorem resolveValue_processValue (st : MiniserverState) (es : List (String × Nat))
    (now : Nat) (id : String) :
    resolveValue (processValue st es now) id = resolveValue (applyValueEntries st es) id := by
  unfold processValue
  by_cases h : es.isEmpty
  · simp [h]
  · simp only [h, if_false, Bool.false_eq_true]
    exact resolveValue_set_ts _ _ _

/-- Claim C1 counterexample: two parts of the claim fail on the example mirror.
An empty decoded VALUE batch leaves `last_update_ts` unchanged (the source
guards the advance with `if entries:`), and with duplicate state ids in a
batch the earlier record's value is overwritten, so not every resolved record
finds its own value in the mirror afterwards. -/
theorem value_batch_claim_counterexample :
    (processValue exState [] 100).last_update_ts ≠ 100
      ∧ (resolveValue exState "s1").isSome = true
      ∧ (("s1", 5) ∈ ([("s1", 5), ("s1", 7)] : List (String × Nat)))
      ∧ resolveValue (processValue exState [("s1", 5), ("s1", 7)] 100) "s1" ≠ some (some 5)
      ∧ resolveValue (processValue exState [("s1", 5), ("s1", 7)] 100) "s1" = some (some 7) := by
  refine ⟨by decide, by decide, by decide, by decide, by decide⟩

/-- Claim C1 (amended): for every decoded VALUE batch applied by the session
runner, afterwards every record whose state id resolves via the reverse
index and that is the last record of the batch writing to its state entry
has its value stored there; `last_update_ts` advances to the current wall
time if the decoded batch is non-empty and stays unchanged if it is empty;
and a record whose state id is absent from the reverse index leaves the
mirror unchanged and never fails. -/
theorem value_batch_application_amended (st : MiniserverState) (es : List (String × Nat))
    (now : Nat) :
    (∀ k id v, es.get? k = some (id, v) →
        (resolveValue st id).isSome = true →
        (∀ j id' v', k < j → es.get? j = some (id', v') →
            lookupA st.state_map id' ≠ lookupA st.state_map id) →
        resolveValue (processValue st es now) id = some (some v))
      ∧ (processValue st es now).last_update_ts
          = (if es = [] then st.last_update_ts else now)
      ∧ (∀ id v, lookupA st.state_map id = none → applyValueEntry st id v = st) := by
  refine ⟨?_, ?_, ?_⟩
  · intro k id v hget hres hlast
    rw [resolveValue_processValue]
    exact applyValueEntries_last_write es st k id v hget hres hlast
  · cases es with
    | nil => simp [processValue, applyValueEntries]
    | cons a l => simp [processValue]
  · intro id v h
    exact applyValueEntry_unres st id v h

/-- Witness for C1: the amended theorem applied to the example mirror, a
one-record batch and an unknown id. -/
theorem value_batch_application_witness :
    resolveValue (processValue exState [("s1", 7)] 5) "s1" = some (some 7)
      ∧ (processValue exState [("s1", 7)] 5).last_update_ts = 5
      ∧ applyValueEntry exState "zz" 3 = exState := by
  obtain ⟨h1, h2, h3⟩ := value_batch_application_amended exState [("s1", 7)] 5
  refine ⟨h1 0 "s1" 7 rfl (by decide) ?_, by simpa using h2, h3 "zz" 3 (by decide)⟩
  intro j id' v' hj hg
  cases j with
  | zero => omega
  | succ m => simp at hg
